import Mathlib

/-!
Verification of the HKO tide-table pipeline:
`week02/parse_hko_tables.py` (table extractor) and
`week02/reshape_and_plot.py` (series reshaper), shallowly embedded in Lean.

The embedding works over the parsed HTML tree (a document is a list of
tables, a table a list of rows, a row a list of cells each tagged header or
data, matching the xpath traversal in `parse_tables`), strings as Lean
strings, Python `float` values as rationals, and the fallible Python calls
(`int`, `float`, `pd.Timestamp`) as `Option` / `Except` results.  An
uncaught Python exception is modelled as an `Except.error`.
-/

namespace HkoTide

/-- Python whitespace as recognised by `str.strip()` / `str.split()`,
restricted to the characters that can occur in this pipeline: ASCII
whitespace, NEL and the no-break space U+00A0.  (Python also treats the
remaining Unicode space characters as whitespace; they never occur in the
modelled inputs and are omitted.) -/
def isPySpace (c : Char) : Bool :=
  c = ' ' || c = '\t' || c = '\n' || c = '\r' || c = Char.ofNat 11 ||
  c = Char.ofNat 12 || c = Char.ofNat 133 || c = Char.ofNat 160

/-- Python `str.strip()` on a character list: drop whitespace at both ends. -/
def pyStripL (l : List Char) : List Char :=
  ((l.dropWhile isPySpace).reverse.dropWhile isPySpace).reverse

/-- Python `str.strip()` on strings. -/
def pyStrip (s : String) : String :=
  String.mk (pyStripL s.data)

/-- Model of t.replace(chr(0xa0), chr(0x20)): the single-character
replacement in `normalize_text` (source line 34). -/
def replaceNbsp (l : List Char) : List Char :=
  l.map (fun c => if c = Char.ofNat 160 then ' ' else c)

/-- One `foldr` step of whitespace splitting: a whitespace character opens a
fresh (possibly empty) segment, any other character is prepended to the
current head segment. -/
def splitGroupsStep (c : Char) (acc : List (List Char)) : List (List Char) :=
  if isPySpace c then [] :: acc
  else
    match acc with
    | [] => [[c]]
    | t :: ts => (c :: t) :: ts

/-- All whitespace-delimited segments of a list, empty segments included. -/
def splitGroupsAll (l : List Char) : List (List Char) :=
  l.foldr splitGroupsStep [[]]

/-- Python `str.split()` (no argument): the maximal nonempty runs of
non-whitespace characters, i.e. the whitespace-delimited segments with the
empty ones dropped. -/
def pySplitWs (l : List Char) : List (List Char) :=
  (splitGroupsAll l).filter (fun t => !t.isEmpty)

/-- Python `chr(0x20).join(ts)`: the token lists joined with a single space
between consecutive tokens. -/
def joinSp : List (List Char) → List Char
  | [] => []
  | [t] => t
  | t :: t2 :: ts => t ++ ' ' :: joinSp (t2 :: ts)

/-- The function `normalize_text` of `parse_hko_tables.py` (lines 29-35) on
a character list: strip, replace no-break spaces, strip again, then rejoin
the whitespace-split tokens with single spaces. -/
def normalizeL (l : List Char) : List Char :=
  joinSp (pySplitWs (pyStripL (replaceNbsp (pyStripL l))))

/-- Model of normalize_text(s): the value None maps to the empty string,
otherwise the normalisation above. -/
def normalize_text : Option String → String
  | none => ""
  | some s => String.mk (normalizeL s.data)

/-- Decimal value of a digit list (most significant first). -/
def digitsVal (l : List Char) : Nat :=
  l.foldl (fun a c => 10 * a + (c.toNat - 48)) 0

/-- Strip one optional leading sign; returns (isNegative, rest). -/
def splitSign (l : List Char) : Bool × List Char :=
  match l with
  | [] => (false, [])
  | c :: rest =>
    if c = '-' then (true, rest)
    else if c = '+' then (false, rest)
    else (false, c :: rest)

/-- Python `int(s)` for a string argument: surrounding whitespace ignored,
one optional sign, then a nonempty run of decimal digits consuming the whole
rest; anything else raises `ValueError`, modelled as `none`.  (Underscore
digit separators are not modelled; they never appear in this data.) -/
def pyIntL (l : List Char) : Option Int :=
  let s := pyStripL l
  let p := splitSign s
  if p.2.isEmpty || !(p.2.all Char.isDigit) then none
  else if p.1 then some (-(digitsVal p.2 : Int)) else some (digitsVal p.2 : Int)

/-- Python `int` on strings. -/
def pyInt (s : String) : Option Int :=
  pyIntL s.data

/-- Model of int(cell) where the cell may be the NaN a blank CSV field
reads back as: int of NaN raises, modelled as `none`. -/
def pyIntCell : Option String → Option Int
  | none => none
  | some s => pyInt s

/-- Exponent suffix of a Python float literal: either nothing, or
`e`/`E`, an optional sign and a nonempty digit run consuming the rest. -/
def parseExpPart : List Char → Option Int
  | [] => some 0
  | c :: rest =>
    if c = 'e' || c = 'E' then
      let p := splitSign rest
      if p.2.isEmpty || !(p.2.all Char.isDigit) then none
      else if p.1 then some (-(digitsVal p.2 : Int)) else some (digitsVal p.2 : Int)
    else none

/-- Value of the integer and fraction digit runs of a float literal. -/
def mantissaVal (ip fp : List Char) : ℚ :=
  (digitsVal ip : ℚ) + (digitsVal fp : ℚ) / ((10 : ℚ) ^ fp.length)

/-- Python `float(s)` for the numeric literal forms: optional surrounding
whitespace, optional sign, digits with an optional decimal point (at least
one digit overall), optional exponent.  The `inf` / `nan` spellings and
underscore separators never occur in this data and are not modelled.
Values are exact rationals; this pipeline only parses and re-emits them, so
no IEEE rounding is observable in the modelled claims. -/
def pyFloatL (l : List Char) : Option ℚ :=
  let s := pyStripL l
  let p := splitSign s
  let ip := p.2.takeWhile Char.isDigit
  let r2 := p.2.dropWhile Char.isDigit
  match r2 with
  | '.' :: r3 =>
    let fp := r3.takeWhile Char.isDigit
    let r4 := r3.dropWhile Char.isDigit
    if ip.isEmpty && fp.isEmpty then none
    else
      match parseExpPart r4 with
      | none => none
      | some e =>
        let v := mantissaVal ip fp * (10 : ℚ) ^ e
        some (if p.1 then -v else v)
  | _ =>
    if ip.isEmpty then none
    else
      match parseExpPart r2 with
      | none => none
      | some e =>
        let v := mantissaVal ip [] * (10 : ℚ) ^ e
        some (if p.1 then -v else v)

/-- Python `float` on strings. -/
def pyFloat (s : String) : Option ℚ :=
  pyFloatL s.data

/-- Python `s.zfill(w)`: left-pad with zeros to width `w`, keeping a leading
sign in front of the padding; strings already at least `w` long are
returned unchanged. -/
def pyZfill (w : Nat) (s : String) : String :=
  if w ≤ s.data.length then s
  else
    match s.data with
    | c :: rest =>
      if c = '+' || c = '-' then
        String.mk (c :: (List.replicate (w - s.data.length) '0' ++ rest))
      else String.mk (List.replicate (w - s.data.length) '0' ++ s.data)
    | [] => String.mk (List.replicate w '0')

/-- One cell of a parsed HTML table row: either a header cell (`th`) or a
data cell (`td`), with its `text_content()`. -/
structure Cell where
  isHeader : Bool
  content : String
deriving DecidableEq

/-- A document as `parse_tables` traverses it: `//table`, then `.//tr`
within each table, then the cells of each `tr`. -/
abbrev Document := List (List (List Cell))

/-- The body of the `for tr` loop of `parse_tables` (lines 44-69): skip the
row if it contains any `th`, if it has no `td`, or if fewer than 2
normalised cells remain; otherwise pad the cell texts with empty strings to
10 columns and keep the first 10. -/
def processTr (tr : List Cell) : Option (List String) :=
  if tr.any (fun c => c.isHeader) then none
  else
    let tds := tr.filter (fun c => !c.isHeader)
    if tds.isEmpty then none
    else
      let cells := tds.map (fun c => normalize_text (some c.content))
      if cells.length < 2 then none
      else some ((cells ++ List.replicate (10 - cells.length) "").take 10)

/-- The function `parse_tables` (lines 38-71): every row of every table,
in document order, filtered and padded by `processTr`. -/
def parse_tables (doc : Document) : List (List String) :=
  (doc.flatten).filterMap processTr

/-- The function main of `parse_hko_tables.py` (lines 84-91) after the
HTML is read: `none` models the non-fatal path that prints the no-data
message and returns without writing; `some rows` models write_csv(rows). -/
def extractorMain (doc : Document) : Option (List (List String)) :=
  let rows := parse_tables doc
  if rows.isEmpty then none else some rows

/-- A `pd.Timestamp` as constructible by the reshaper: the year is always
2023 (line 54), so only month, day, hour, minute are carried. -/
structure Timestamp where
  month : Int
  day : Int
  hour : Int
  minute : Int
deriving DecidableEq

/-- Chronological sort key of a timestamp within the fixed year: strictly
monotone in (month, day, hour, minute) on the in-range values the
constructor admits. -/
def tsKey (t : Timestamp) : Int :=
  ((t.month * 32 + t.day) * 24 + t.hour) * 60 + t.minute

/-- Days in each month of 2023 (not a leap year). -/
def daysInMonth2023 (m : Int) : Int :=
  if m = 2 then 28
  else if m = 4 || m = 6 || m = 9 || m = 11 then 30
  else 31

/-- Model of pd.Timestamp(year=2023, month=m, day=d, hour=h, minute=mi)
(line 54): raises ValueError - modelled as `Except.error` - unless every
field is in range for the 2023 calendar. -/
def mkTimestamp (m d h mi : Int) : Except String Timestamp :=
  if 1 ≤ m && m ≤ 12 && 1 ≤ d && d ≤ daysInMonth2023 m &&
     0 ≤ h && h ≤ 23 && 0 ≤ mi && mi ≤ 59 then
    .ok ⟨m, d, h, mi⟩
  else .error "ValueError: invalid datetime fields"

/-- One wide CSV row as `pd.read_csv(CSV_IN, dtype=str)` yields it: every
field is a string, except that an empty CSV field reads back as `NaN`,
modelled as `none`. -/
structure Row where
  month : Option String
  day : Option String
  t1 : Option String
  h1 : Option String
  t2 : Option String
  h2 : Option String
  t3 : Option String
  h3 : Option String
  t4 : Option String
  h4 : Option String
deriving DecidableEq

/-- The time column of pair slot `i` (column t1 .. t4). -/
def Row.tcol (r : Row) : Nat → Option String
  | 1 => r.t1
  | 2 => r.t2
  | 3 => r.t3
  | 4 => r.t4
  | _ => none

/-- The height column of pair slot `i` (column h1 .. h4). -/
def Row.hcol (r : Row) : Nat → Option String
  | 1 => r.h1
  | 2 => r.h2
  | 3 => r.h3
  | 4 => r.h4
  | _ => none

/-- The blank-slot test of lines 41-44: pd.isna(x) or an all-whitespace
string. -/
def pyBlank : Option String → Bool
  | none => true
  | some s => pyStrip s == ""

/-- One long-form record appended at lines 59-65. -/
structure Reading where
  datetime : Timestamp
  tide_m : ℚ
  pair : Nat
  month : Int
  day : Int
deriving DecidableEq

/-- The body of the `for i in range(1,5)` loop (lines 36-65) for one slot,
given the already-parsed month and day: `ok none` is a silent skip
(`continue`), `ok (some rd)` appends a Reading, `error` is an uncaught
exception aborting the run.  The order matches the source: blank-time
check, blank-height check, `zfill(4)` and `int` of the two halves (skip on
failure), `pd.Timestamp` (NOT wrapped in try - failure aborts), then
`float` of the height (skip on failure). -/
def processSlot (m d : Int) (r : Row) (i : Nat) : Except String (Option Reading) :=
  let t := r.tcol i
  let h := r.hcol i
  if pyBlank t then .ok none
  else if pyBlank h then .ok none
  else
    let tstr := pyZfill 4 (t.getD "")
    match pyIntL (tstr.data.take 2), pyIntL (tstr.data.drop 2) with
    | some hour, some minute =>
      match mkTimestamp m d hour minute with
      | .error e => .error e
      | .ok ts =>
        match pyFloat (pyStrip (h.getD "")) with
        | none => .ok none
        | some v => .ok (some ⟨ts, v, i, m, d⟩)
    | _, _ => .ok none

/-- Accumulating one slot of the inner loop: a skip leaves the collected
list unchanged, a Reading is appended, an exception propagates. -/
def slotStep (m d : Int) (r : Row) (acc : List Reading) (i : Nat) :
    Except String (List Reading) :=
  match processSlot m d r i with
  | .error e => .error e
  | .ok none => .ok acc
  | .ok (some rd) => .ok (acc ++ [rd])

/-- One iteration of the row loop (lines 33-65): the int conversions of
the month and day cells are not wrapped in any try, so a failure there
aborts the run; then the four slots are processed in order, collecting
Readings. -/
def processRow (r : Row) : Except String (List Reading) :=
  match pyIntCell r.month with
  | none => .error "ValueError: invalid month text"
  | some m =>
    match pyIntCell r.day with
    | none => .error "ValueError: invalid day text"
    | some d => ([1, 2, 3, 4] : List Nat).foldlM (slotStep m d r) []

/-- Accumulating one row of the melt loop. -/
def meltStep (acc : List Reading) (r : Row) : Except String (List Reading) :=
  match processRow r with
  | .error e => .error e
  | .ok l => .ok (acc ++ l)

/-- The whole melt loop (lines 32-65): all rows in order, Readings
concatenated; the first uncaught exception aborts. -/
def reshapeMelt (df : List Row) : Except String (List Reading) :=
  df.foldlM meltStep []

/-- Order on Readings by datetime, the `sort_values('datetime')` key. -/
def readingLE (a b : Reading) : Prop :=
  tsKey a.datetime ≤ tsKey b.datetime

instance : DecidableRel readingLE :=
  fun a b => inferInstanceAs (Decidable (tsKey a.datetime ≤ tsKey b.datetime))

/-- Model of sort_values on the datetime column for a nonempty frame:
some reordering that is sorted by datetime.  pandas uses its default
quicksort, which guarantees only the ordering (not stability); the model
realises it with an insertion sort. -/
def sortReadings (l : List Reading) : List Reading :=
  List.insertionSort readingLE l

/-- The reshaper module body after reading the CSV (lines 32-70): melt,
then build the DataFrame and sort it by datetime, then write it out.  When
the melt produced zero Readings the empty DataFrame has no columns at all
and the sort on the missing datetime column raises KeyError, aborting
before the write; `ok l` models writing the long CSV with rows `l`. -/
def reshapeProgram (df : List Row) : Except String (List Reading) :=
  match reshapeMelt df with
  | .error e => .error e
  | .ok l =>
    if l.isEmpty then .error "KeyError: datetime"
    else .ok (sortReadings l)

/-- The CSV boundary between the two stages: a written field read back with
`dtype=str` is the same string, except that an empty field reads back as
`NaN` (`none`). -/
def csvCell (s : String) : Option String :=
  if s = "" then none else some s

/-- A 10-field extractor row read back as a reshaper `Row`. -/
def toRow (l : List String) : Row :=
  { month := csvCell (l.getD 0 ""), day := csvCell (l.getD 1 "")
    t1 := csvCell (l.getD 2 ""), h1 := csvCell (l.getD 3 "")
    t2 := csvCell (l.getD 4 ""), h2 := csvCell (l.getD 5 "")
    t3 := csvCell (l.getD 6 ""), h3 := csvCell (l.getD 7 "")
    t4 := csvCell (l.getD 8 ""), h4 := csvCell (l.getD 9 "") }

/-- Extract, write the wide CSV, read it back, reshape. -/
def pipeline (doc : Document) : Except String (List Reading) :=
  reshapeProgram ((parse_tables doc).map toRow)

/-- The condition under which `processTr` keeps a `tr`: no header cell and
at least 2 data cells (which subsumes the separate no-`td` skip). -/
def keepTr (tr : List Cell) : Bool :=
  !(tr.any (fun c => c.isHeader)) &&
  !(decide ((tr.filter (fun c => !c.isHeader)).length < 2))

/-- The 10-field row `processTr` emits for a kept `tr`. -/
def padTr (tr : List Cell) : List String :=
  let cells := (tr.filter (fun c => !c.isHeader)).map
    (fun c => normalize_text (some c.content))
  (cells ++ List.replicate (10 - cells.length) "").take 10

/-- A pair slot is valid when processing it yields a Reading (neither a
silent skip nor an abort). -/
def validSlotB (m d : Int) (r : Row) (i : Nat) : Bool :=
  match processSlot m d r i with
  | .ok (some _) => true
  | _ => false

/-- A wide row all four of whose pair slots are valid (month and day also
parse, as they must for the row not to abort the run). -/
def rowAllValid (r : Row) : Bool :=
  match pyIntCell r.month, pyIntCell r.day with
  | some m, some d => ([1, 2, 3, 4] : List Nat).all (fun i => validSlotB m d r i)
  | _, _ => false

/-- No two adjacent characters are both a space. -/
def noDoubleSpace : List Char → Bool
  | a :: b :: r => (!(a == ' ') || !(b == ' ')) && noDoubleSpace (b :: r)
  | _ => true

theorem splitGroupsStep_ne_nil (c : Char) (acc : List (List Char)) :
    splitGroupsStep c acc ≠ [] := by
  unfold splitGroupsStep
  split
  · exact List.cons_ne_nil _ _
  · cases acc <;> simp

theorem splitGroupsAll_nil : splitGroupsAll [] = [[]] := rfl

theorem splitGroupsAll_cons (c : Char) (cs : List Char) :
    splitGroupsAll (c :: cs) = splitGroupsStep c (splitGroupsAll cs) := rfl

theorem splitGroupsAll_ne_nil (l : List Char) : splitGroupsAll l ≠ [] := by
  cases l with
  | nil => simp [splitGroupsAll_nil]
  | cons c cs => rw [splitGroupsAll_cons]; exact splitGroupsStep_ne_nil c _

theorem splitGroupsAll_ws_cons {c : Char} (h : isPySpace c = true) (cs : List Char) :
    splitGroupsAll (c :: cs) = [] :: splitGroupsAll cs := by
  rw [splitGroupsAll_cons]
  unfold splitGroupsStep
  simp [h]

theorem splitGroupsAll_append_token {t : List Char} (ht : ∀ c ∈ t, isPySpace c = false)
    (rest : List Char) {g : List Char} {gs : List (List Char)}
    (hrest : splitGroupsAll rest = g :: gs) :
    splitGroupsAll (t ++ rest) = (t ++ g) :: gs := by
  induction t with
  | nil => simpa using hrest
  | cons c t ih =>
    have hc : isPySpace c = false := ht c (by simp)
    have hrec := ih (fun x hx => ht x (by simp [hx]))
    rw [List.cons_append, splitGroupsAll_cons, hrec]
    unfold splitGroupsStep
    simp [hc]

theorem splitGroupsAll_no_ws (l : List Char) :
    ∀ t ∈ splitGroupsAll l, ∀ c ∈ t, isPySpace c = false := by
  induction l with
  | nil => simp [splitGroupsAll_nil]
  | cons c cs ih =>
    rw [splitGroupsAll_cons]
    unfold splitGroupsStep
    split
    · intro t ht x hx
      rcases List.mem_cons.mp ht with h1 | h1
      · subst h1; simp at hx
      · exact ih t h1 x hx
    · rename_i hws
      cases hgs : splitGroupsAll cs with
      | nil => exact absurd hgs (splitGroupsAll_ne_nil cs)
      | cons g gs =>
        intro t ht x hx
        rcases List.mem_cons.mp ht with h1 | h1
        · subst h1
          rcases List.mem_cons.mp hx with h2 | h2
          · subst h2; exact Bool.not_eq_true _ ▸ (by simpa using hws)
          · exact ih g (hgs ▸ List.mem_cons_self g gs) x h2
        · exact ih t (hgs ▸ List.mem_cons_of_mem g h1) x hx

theorem pySplitWs_good (l : List Char) :
    ∀ t ∈ pySplitWs l, t ≠ [] ∧ ∀ c ∈ t, isPySpace c = false := by
  intro t ht
  have h1 := List.mem_filter.mp ht
  refine ⟨?_, splitGroupsAll_no_ws l t h1.1⟩
  simpa [List.isEmpty_iff] using h1.2

theorem pySplitWs_nil : pySplitWs [] = [] := rfl

theorem joinSp_cons_cons (t t2 : List Char) (ts : List (List Char)) :
    joinSp (t :: t2 :: ts) = t ++ ' ' :: joinSp (t2 :: ts) := rfl

theorem pySplitWs_joinSp : ∀ ts : List (List Char),
    (∀ t ∈ ts, t ≠ [] ∧ ∀ c ∈ t, isPySpace c = false) →
    pySplitWs (joinSp ts) = ts
  | [] => fun _ => rfl
  | [t] => by
    intro h
    have hh := h t (by simp)
    have hsp : splitGroupsAll t = [t] := by
      have := splitGroupsAll_append_token hh.2 [] splitGroupsAll_nil
      simpa using this
    have ht2 : t.isEmpty = false := by
      cases t with
      | nil => exact absurd rfl hh.1
      | cons a as => rfl
    unfold pySplitWs
    rw [show joinSp [t] = t from rfl, hsp]
    simp [List.filter, ht2]
  | t :: t2 :: ts => by
    intro h
    have hh := h t (by simp)
    have hrest : pySplitWs (joinSp (t2 :: ts)) = t2 :: ts :=
      pySplitWs_joinSp (t2 :: ts) (fun x hx => h x (by simp [hx]))
    rw [joinSp_cons_cons]
    cases hgs : splitGroupsAll (joinSp (t2 :: ts)) with
    | nil => exact absurd hgs (splitGroupsAll_ne_nil _)
    | cons g gs =>
      have hws : splitGroupsAll (' ' :: joinSp (t2 :: ts)) = [] :: g :: gs := by
        rw [splitGroupsAll_ws_cons (by decide) _, hgs]
      have hmain := splitGroupsAll_append_token hh.2 (' ' :: joinSp (t2 :: ts)) hws
      unfold pySplitWs
      rw [hmain]
      have hfil : List.filter (fun t => !t.isEmpty) (g :: gs) = t2 :: ts := by
        have : pySplitWs (joinSp (t2 :: ts)) = List.filter (fun t => !t.isEmpty) (g :: gs) := by
          unfold pySplitWs; rw [hgs]
        rw [← this, hrest]
      have ht2 : (!t.isEmpty) = true := by
        cases t with
        | nil => exact absurd rfl hh.1
        | cons a as => rfl
      simp only [List.append_nil]
      rw [List.filter_cons, if_pos ht2, hfil]

theorem joinSp_chars : ∀ ts : List (List Char),
    (∀ t ∈ ts, ∀ c ∈ t, isPySpace c = false) →
    ∀ c ∈ joinSp ts, isPySpace c = false ∨ c = ' '
  | [] => by simp [joinSp]
  | [t] => fun h c hc => Or.inl (h t (by simp) c hc)
  | t :: t2 :: ts => by
    intro h c hc
    rw [joinSp_cons_cons] at hc
    rcases List.mem_append.mp hc with h1 | h1
    · exact Or.inl (h t (by simp) c h1)
    · rcases List.mem_cons.mp h1 with h2 | h2
      · exact Or.inr h2
      · exact joinSp_chars (t2 :: ts) (fun x hx => h x (by simp [hx])) c h2

theorem joinSp_head : ∀ ts : List (List Char),
    (∀ t ∈ ts, t ≠ [] ∧ ∀ c ∈ t, isPySpace c = false) →
    ∀ c ∈ (joinSp ts).head?, isPySpace c = false
  | [] => by simp [joinSp]
  | [t] => by
    intro h c hc
    exact (h t (by simp)).2 c (List.mem_of_mem_head? hc)
  | t :: t2 :: ts => by
    intro h c hc
    rw [joinSp_cons_cons] at hc
    have hh := h t (by simp)
    cases ht : t with
    | nil => exact absurd ht hh.1
    | cons a as =>
      rw [ht, List.cons_append] at hc
      simp only [List.head?_cons, Option.mem_def, Option.some.injEq] at hc
      rw [← hc]
      exact hh.2 a (ht ▸ List.mem_cons_self a as)

theorem mem_of_mem_getLast? {l : List Char} {a : Char} (h : a ∈ l.getLast?) : a ∈ l := by
  rw [← List.head?_reverse] at h
  exact (List.mem_reverse).mp (List.mem_of_mem_head? h)

theorem joinSp_getLast : ∀ ts : List (List Char),
    (∀ t ∈ ts, t ≠ [] ∧ ∀ c ∈ t, isPySpace c = false) →
    ∀ c ∈ (joinSp ts).getLast?, isPySpace c = false
  | [] => by simp [joinSp]
  | [t] => by
    intro h c hc
    exact (h t (by simp)).2 c (mem_of_mem_getLast? hc)
  | t :: t2 :: ts => by
    intro h c hc
    rw [joinSp_cons_cons] at hc
    have hj : (' ' :: joinSp (t2 :: ts)).getLast? ≠ none := by
      simp [List.getLast?_eq_none_iff]
    rw [List.getLast?_append] at hc
    cases hg : (' ' :: joinSp (t2 :: ts)).getLast? with
    | none => exact absurd hg hj
    | some b =>
      rw [hg] at hc
      simp only [Option.or_some, Option.mem_def, Option.some.injEq] at hc
      rw [← hc]
      -- b = getLast of the space-separated tail

      cases hjj : joinSp (t2 :: ts) with
      | nil =>
        -- then getLast? [' '] = some ' '   but joinSp (t2::ts) nonempty since t2 ≠ []
        have ht2 := h t2 (by simp)
        cases ht2' : t2 with
        | nil => exact absurd ht2' ht2.1
        | cons a as =>
          exfalso
          cases ts with
          | nil => rw [show joinSp [t2] = t2 from rfl, ht2'] at hjj; exact List.noConfusion hjj
          | cons t3 ts3 =>
            rw [joinSp_cons_cons, ht2'] at hjj
            exact List.noConfusion hjj
      | cons b2 j2 =>
        rw [hjj] at hg
        rw [show (' ' :: b2 :: j2).getLast? = (b2 :: j2).getLast? from rfl] at hg
        exact joinSp_getLast (t2 :: ts) (fun x hx => h x (by simp [hx])) b
          (by rw [hjj, hg]; rfl)

theorem noDoubleSpace_of_no_space : ∀ l : List Char,
    (∀ c ∈ l, (c == ' ') = false) → noDoubleSpace l = true
  | [] => fun _ => rfl
  | [a] => fun _ => rfl
  | a :: b :: r => by
    intro h
    unfold noDoubleSpace
    rw [h a (by simp), noDoubleSpace_of_no_space (b :: r) (fun c hc => h c (by simp [List.mem_cons.mp hc]))]
    rfl

theorem noDoubleSpace_cons_cons (a b : Char) (r : List Char) :
    noDoubleSpace (a :: b :: r) = ((!(a == ' ') || !(b == ' ')) && noDoubleSpace (b :: r)) := rfl

theorem noDoubleSpace_append_token : ∀ t r : List Char,
    (∀ c ∈ t, (c == ' ') = false) → noDoubleSpace r = true →
    noDoubleSpace (t ++ r) = true
  | [], r => fun _ hr => hr
  | [a], r => by
    intro ht hr
    cases r with
    | nil => rfl
    | cons b r2 =>
      rw [List.singleton_append, noDoubleSpace_cons_cons, ht a (by simp), hr]
      rfl
  | a :: b :: t2, r => by
    intro ht hr
    have hrec := noDoubleSpace_append_token (b :: t2) r
      (fun c hc => ht c (by simp [List.mem_cons.mp hc])) hr
    rw [List.cons_append, List.cons_append, noDoubleSpace_cons_cons, ht a (by simp)]
    rw [← List.cons_append, hrec]
    rfl

theorem noDoubleSpace_joinSp : ∀ ts : List (List Char),
    (∀ t ∈ ts, t ≠ [] ∧ ∀ c ∈ t, isPySpace c = false) →
    noDoubleSpace (joinSp ts) = true
  | [] => fun _ => rfl
  | [t] => by
    intro h
    refine noDoubleSpace_of_no_space t (fun c hc => ?_)
    have := (h t (by simp)).2 c hc
    simp only [beq_eq_false_iff_ne, ne_eq]
    intro he
    rw [he] at this
    exact absurd this (by decide)
  | t :: t2 :: ts => by
    intro h
    have hh := h t (by simp)
    have hrec := noDoubleSpace_joinSp (t2 :: ts) (fun x hx => h x (by simp [hx]))
    have hhead := joinSp_head (t2 :: ts) (fun x hx => h x (by simp [hx]))
    rw [joinSp_cons_cons]
    refine noDoubleSpace_append_token t (' ' :: joinSp (t2 :: ts)) ?_ ?_
    · intro c hc
      have := hh.2 c hc
      simp only [beq_eq_false_iff_ne, ne_eq]
      intro he
      rw [he] at this
      exact absurd this (by decide)
    · cases hj : joinSp (t2 :: ts) with
      | nil => rfl
      | cons b j2 =>
        have hb : isPySpace b = false := hhead b (by rw [hj]; rfl)
        have hb2 : (b == ' ') = false := by
          simp only [beq_eq_false_iff_ne, ne_eq]
          intro he
          rw [he] at hb
          exact absurd hb (by decide)
        have hrec2 : noDoubleSpace (b :: j2) = true := hj ▸ hrec
        rw [noDoubleSpace_cons_cons, hb2, hrec2]
        rfl

theorem dropWhile_of_head (p : Char → Bool) (l : List Char)
    (h : ∀ c ∈ l.head?, p c = false) : l.dropWhile p = l := by
  cases l with
  | nil => rfl
  | cons a t =>
    have : p a = false := h a rfl
    simp [List.dropWhile_cons, this]

theorem pyStripL_of_edges (l : List Char)
    (h1 : ∀ c ∈ l.head?, isPySpace c = false)
    (h2 : ∀ c ∈ l.getLast?, isPySpace c = false) : pyStripL l = l := by
  unfold pyStripL
  rw [dropWhile_of_head _ _ h1]
  rw [dropWhile_of_head _ _ (by rw [List.head?_reverse]; exact h2)]
  exact List.reverse_reverse l

theorem pyStripL_no_ws (l : List Char) (h : ∀ c ∈ l, isPySpace c = false) :
    pyStripL l = l :=
  pyStripL_of_edges l (fun c hc => h c (List.mem_of_mem_head? hc))
    (fun c hc => h c (mem_of_mem_getLast? hc))

theorem replaceNbsp_of_no_nbsp (l : List Char) (h : ∀ c ∈ l, c ≠ Char.ofNat 160) :
    replaceNbsp l = l := by
  unfold replaceNbsp
  have hcong : ∀ a ∈ l, (if a = Char.ofNat 160 then ' ' else a) = id a :=
    fun a ha => by simp [h a ha]
  rw [List.map_congr_left hcong, List.map_id]

theorem normalizeL_tokens_good (l : List Char) :
    ∀ t ∈ pySplitWs (pyStripL (replaceNbsp (pyStripL l))), t ≠ [] ∧ ∀ c ∈ t, isPySpace c = false :=
  pySplitWs_good _

theorem normalizeL_chars (l : List Char) :
    ∀ c ∈ normalizeL l, isPySpace c = false ∨ c = ' ' :=
  joinSp_chars _ (fun t ht => (normalizeL_tokens_good l t ht).2)

theorem normalizeL_head (l : List Char) :
    ∀ c ∈ (normalizeL l).head?, isPySpace c = false :=
  joinSp_head _ (normalizeL_tokens_good l)

theorem normalizeL_getLast (l : List Char) :
    ∀ c ∈ (normalizeL l).getLast?, isPySpace c = false :=
  joinSp_getLast _ (normalizeL_tokens_good l)

theorem normalizeL_noDouble (l : List Char) : noDoubleSpace (normalizeL l) = true :=
  noDoubleSpace_joinSp _ (normalizeL_tokens_good l)

theorem normalizeL_no_nbsp (l : List Char) : ∀ c ∈ normalizeL l, c ≠ Char.ofNat 160 := by
  intro c hc he
  rcases normalizeL_chars l c hc with h | h
  · rw [he] at h
    exact absurd h (by decide)
  · rw [he] at h
    exact absurd h (by decide)

theorem normalizeL_idem (l : List Char) : normalizeL (normalizeL l) = normalizeL l := by
  have hstrip : pyStripL (normalizeL l) = normalizeL l :=
    pyStripL_of_edges _ (normalizeL_head l) (normalizeL_getLast l)
  have hrepl : replaceNbsp (normalizeL l) = normalizeL l :=
    replaceNbsp_of_no_nbsp _ (normalizeL_no_nbsp l)
  have hsplit : pySplitWs (normalizeL l) = pySplitWs (pyStripL (replaceNbsp (pyStripL l))) :=
    pySplitWs_joinSp _ (normalizeL_tokens_good l)
  calc normalizeL (normalizeL l)
      = joinSp (pySplitWs (pyStripL (replaceNbsp (pyStripL (normalizeL l))))) := rfl
    _ = joinSp (pySplitWs (normalizeL l)) := by rw [hstrip, hrepl, hstrip]
    _ = joinSp (pySplitWs (pyStripL (replaceNbsp (pyStripL l)))) := by rw [hsplit]
    _ = normalizeL l := rfl

theorem normalizeL_of_no_ws (l : List Char) (hne : l ≠ [])
    (h : ∀ c ∈ l, isPySpace c = false) : normalizeL l = l := by
  have hnb : ∀ c ∈ l, c ≠ Char.ofNat 160 := by
    intro c hc he
    have := h c hc
    rw [he] at this
    exact absurd this (by decide)
  have h1 : pyStripL l = l := pyStripL_no_ws l h
  have h2 : replaceNbsp l = l := replaceNbsp_of_no_nbsp l hnb
  have h3 : splitGroupsAll l = [l] := by
    simpa using splitGroupsAll_append_token h [] splitGroupsAll_nil
  have hemp : l.isEmpty = false := by
    cases l with
    | nil => exact absurd rfl hne
    | cons a as => rfl
  unfold normalizeL
  rw [h1, h2, h1]
  unfold pySplitWs
  rw [h3, List.filter_cons]
  simp only [hemp, Bool.not_false, if_pos]
  rfl

theorem normalize_text_of_no_ws (s : String) (hne : s.data ≠ [])
    (h : ∀ c ∈ s.data, isPySpace c = false) : normalize_text (some s) = s := by
  show String.mk (normalizeL s.data) = s
  rw [normalizeL_of_no_ws s.data hne h]

theorem isPySpace_false_of_isDigit {c : Char} (h : c.isDigit = true) : isPySpace c = false := by
  cases hsp : isPySpace c
  · rfl
  · exfalso
    unfold isPySpace at hsp
    simp only [Bool.or_eq_true, decide_eq_true_eq] at hsp
    rcases hsp with (((((((h1|h1)|h1)|h1)|h1)|h1)|h1)|h1) <;>
      (subst h1; exact absurd h (by decide))

theorem splitSign_of_digit {c : Char} (h : c.isDigit = true) (l : List Char) :
    splitSign (c :: l) = (false, c :: l) := by
  have h1 : ¬(c = '-') := fun he => by rw [he] at h; exact absurd h (by decide)
  have h2 : ¬(c = '+') := fun he => by rw [he] at h; exact absurd h (by decide)
  simp only [splitSign, if_neg h1, if_neg h2]

theorem pyIntL_digits (l : List Char) (hne : l ≠ []) (h : ∀ c ∈ l, c.isDigit = true) :
    pyIntL l = some ((digitsVal l : Nat) : Int) := by
  have h0 : ∀ c ∈ l, isPySpace c = false := fun c hc => isPySpace_false_of_isDigit (h c hc)
  cases l with
  | nil => exact absurd rfl hne
  | cons c cs =>
    have hall : (c :: cs).all Char.isDigit = true := List.all_eq_true.mpr h
    simp only [pyIntL, pyStripL_no_ws _ h0, splitSign_of_digit (h c (by simp)) cs,
      hall, List.isEmpty_cons, Bool.not_true, Bool.or_false]
    rfl

theorem pyZfill_of_length {s : String} {w : Nat} (h : w ≤ s.data.length) : pyZfill w s = s := by
  unfold pyZfill
  rw [if_pos h]

theorem string_ne_empty_of_data {s : String} (h : s.data ≠ []) : (s == "") = false := by
  cases hb : s == ""
  · rfl
  · exfalso
    have : s = "" := eq_of_beq hb
    rw [this] at h
    exact h rfl

theorem pyStrip_no_ws {s : String} (h : ∀ c ∈ s.data, isPySpace c = false) :
    pyStrip s = s := by
  unfold pyStrip
  rw [pyStripL_no_ws s.data h]

theorem pyBlank_some_false {s : String} (hne : s.data ≠ [])
    (h : ∀ c ∈ s.data, isPySpace c = false) : pyBlank (some s) = false := by
  show (pyStrip s == "") = false
  rw [pyStrip_no_ws h]
  exact string_ne_empty_of_data hne

theorem pyBlank_digits {s : String} (hne : s.data ≠ [])
    (h : ∀ c ∈ s.data, c.isDigit = true) : pyBlank (some s) = false :=
  pyBlank_some_false hne (fun c hc => isPySpace_false_of_isDigit (h c hc))

theorem processSlot_skip_blank (m d : Int) (r : Row) (i : Nat)
    (h : pyBlank (r.tcol i) = true ∨ pyBlank (r.hcol i) = true) :
    processSlot m d r i = .ok none := by
  unfold processSlot
  rcases h with h | h
  · simp [h]
  · cases hb : pyBlank (r.tcol i) <;> simp [h, hb]

theorem processSlot_skip_badint (m d : Int) (r : Row) (i : Nat)
    (h1 : pyBlank (r.tcol i) = false) (h2 : pyBlank (r.hcol i) = false)
    (h3 : pyIntL ((pyZfill 4 ((r.tcol i).getD "")).data.take 2) = none ∨
          pyIntL ((pyZfill 4 ((r.tcol i).getD "")).data.drop 2) = none) :
    processSlot m d r i = .ok none := by
  unfold processSlot
  rcases h3 with h3 | h3
  · simp [h1, h2, h3]
  · cases h4 : pyIntL ((pyZfill 4 ((r.tcol i).getD "")).data.take 2) <;> simp [h1, h2, h3, h4]

theorem processSlot_parsed (m d : Int) (r : Row) (i : Nat) (hr mi_ : Int)
    (h1 : pyBlank (r.tcol i) = false) (h2 : pyBlank (r.hcol i) = false)
    (h3 : pyIntL ((pyZfill 4 ((r.tcol i).getD "")).data.take 2) = some hr)
    (h4 : pyIntL ((pyZfill 4 ((r.tcol i).getD "")).data.drop 2) = some mi_) :
    processSlot m d r i =
      (match mkTimestamp m d hr mi_ with
       | .error e => .error e
       | .ok ts =>
         match pyFloat (pyStrip ((r.hcol i).getD "")) with
         | none => .ok none
         | some v => .ok (some ⟨ts, v, i, m, d⟩)) := by
  unfold processSlot
  simp [h1, h2, h3, h4]

theorem except_bind_ok {α β : Type} (x : α) (f : α → Except String β) :
    (Except.ok x >>= f) = f x := rfl

theorem except_bind_error {α β : Type} (e : String) (f : α → Except String β) :
    ((Except.error e : Except String α) >>= f) = Except.error e := rfl

theorem sortReadings_singleton (a : Reading) : sortReadings [a] = [a] := rfl

theorem foldlM_meltStep_error {df : List Row} {r : Row} (hr : r ∈ df) {e : String}
    (herr : processRow r = .error e) :
    ∀ acc, ∃ e2, df.foldlM meltStep acc = .error e2 := by
  induction df with
  | nil => simp at hr
  | cons a df ih =>
    intro acc
    rcases List.mem_cons.mp hr with h | h
    · subst h
      refine ⟨e, ?_⟩
      simp [List.foldlM_cons, meltStep, herr, except_bind_error]
    · cases hm : meltStep acc a with
      | error e2 => exact ⟨e2, by simp [List.foldlM_cons, hm, except_bind_error]⟩
      | ok acc2 =>
        obtain ⟨e2, h2⟩ := ih h acc2
        exact ⟨e2, by simp [List.foldlM_cons, hm, h2, except_bind_ok]⟩

theorem processRow_error_of_bad_month_day {r : Row}
    (h : pyIntCell r.month = none ∨ pyIntCell r.day = none) :
    ∃ e, processRow r = .error e := by
  unfold processRow
  rcases h with h | h
  · exact ⟨_, by rw [h]⟩
  · cases hm : pyIntCell r.month with
    | none => exact ⟨_, rfl⟩
    | some m => exact ⟨_, by rw [h]⟩

theorem processRow_of_allValid {r : Row} (h : rowAllValid r = true) :
    ∃ l, processRow r = .ok l ∧ l.length = 4 := by
  unfold rowAllValid at h
  cases hm : pyIntCell r.month with
  | none => rw [hm] at h; exact absurd h (by simp)
  | some m =>
    cases hd : pyIntCell r.day with
    | none => rw [hm, hd] at h; exact absurd h (by simp)
    | some d =>
      rw [hm, hd] at h
      simp only [List.all_cons, List.all_nil, Bool.and_eq_true, Bool.and_true] at h
      obtain ⟨v1, v2, v3, v4⟩ := h
      have g : ∀ i : Nat, validSlotB m d r i = true → ∃ rd, processSlot m d r i = .ok (some rd) := by
        intro i hv
        unfold validSlotB at hv
        cases hp : processSlot m d r i with
        | error e => rw [hp] at hv; exact absurd hv (by simp)
        | ok o =>
          cases o with
          | none => rw [hp] at hv; exact absurd hv (by simp)
          | some rd => exact ⟨rd, rfl⟩
      obtain ⟨r1, p1⟩ := g 1 v1
      obtain ⟨r2, p2⟩ := g 2 v2
      obtain ⟨r3, p3⟩ := g 3 v3
      obtain ⟨r4, p4⟩ := g 4 v4
      refine ⟨[r1, r2, r3, r4], ?_, rfl⟩
      unfold processRow
      rw [hm, hd]
      simp [List.foldlM_cons, slotStep, p1, p2, p3, p4, except_bind_ok]

theorem foldlM_meltStep_count {df : List Row} (h : ∀ r ∈ df, rowAllValid r = true) :
    ∀ acc, ∃ l, df.foldlM meltStep acc = .ok l ∧ l.length = acc.length + 4 * df.length := by
  induction df with
  | nil => intro acc; exact ⟨acc, rfl, by simp⟩
  | cons a df ih =>
    intro acc
    obtain ⟨la, hla, hlen⟩ := processRow_of_allValid (h a (by simp))
    obtain ⟨l, hl, hllen⟩ := ih (fun r hr => h r (by simp [hr])) (acc ++ la)
    refine ⟨l, ?_, ?_⟩
    · simp [List.foldlM_cons, meltStep, hla, hl, except_bind_ok]
    · rw [hllen]
      simp [hlen, List.length_cons]
      ring

theorem processTr_eq (tr : List Cell) :
    processTr tr = if keepTr tr then some (padTr tr) else none := by
  unfold processTr keepTr padTr
  cases h1 : tr.any (fun c => c.isHeader)
  · cases h2 : (tr.filter (fun c => !c.isHeader)).isEmpty
    · simp only [h1, h2, Bool.not_false, Bool.true_and, if_false, Bool.false_eq_true]
      by_cases hlen : (tr.filter (fun c => !c.isHeader)).length < 2
      · simp [List.length_map, hlen]
      · simp [List.length_map, hlen]
    · have h3 : (tr.filter (fun c => !c.isHeader)).length = 0 := by
        rw [List.isEmpty_iff] at h2
        rw [h2]
        rfl
      simp [h1, h2, List.length_map, h3]
  · simp [h1]

theorem parse_tables_eq (doc : Document) :
    parse_tables doc = ((doc.flatten).filter keepTr).map padTr := by
  unfold parse_tables
  induction doc.flatten with
  | nil => rfl
  | cons a l ih =>
    rw [List.filterMap_cons, processTr_eq a, List.filter_cons]
    cases h : keepTr a <;> simp [h, ih]

theorem padTr_length (tr : List Cell) : (padTr tr).length = 10 := by
  unfold padTr
  rw [List.length_take, List.length_append, List.length_replicate, List.length_map]
  rw [Nat.min_def]
  split <;> omega

theorem processRow_eval4 (r : Row) (m d : Int) (o1 o2 o3 o4 : Option Reading)
    (hm : pyIntCell r.month = some m) (hd : pyIntCell r.day = some d)
    (h1 : processSlot m d r 1 = .ok o1) (h2 : processSlot m d r 2 = .ok o2)
    (h3 : processSlot m d r 3 = .ok o3) (h4 : processSlot m d r 4 = .ok o4) :
    processRow r = .ok (([o1, o2, o3, o4].filterMap id)) := by
  unfold processRow
  rw [hm, hd]
  simp only [List.foldlM_cons, List.foldlM_nil, slotStep, h1, h2, h3, h4]
  cases o1 <;> cases o2 <;> cases o3 <;> cases o4 <;> simp [except_bind_ok]

theorem reshapeProgram_of_melt {df : List Row} {l : List Reading}
    (h : reshapeMelt df = .ok l) (hne : l ≠ []) :
    reshapeProgram df = .ok (sortReadings l) := by
  unfold reshapeProgram
  rw [h]
  cases l with
  | nil => exact absurd rfl hne
  | cons a l2 => rfl

theorem reshapeProgram_of_melt_nil {df : List Row}
    (h : reshapeMelt df = .ok []) :
    reshapeProgram df = .error "KeyError: datetime" := by
  unfold reshapeProgram
  rw [h]
  rfl

theorem reshapeProgram_of_melt_error {df : List Row} {e : String}
    (h : reshapeMelt df = .error e) :
    reshapeProgram df = .error e := by
  unfold reshapeProgram
  rw [h]

theorem reshapeMelt_single {r : Row} {l : List Reading}
    (h : processRow r = .ok l) : reshapeMelt [r] = .ok l := by
  unfold reshapeMelt
  simp [List.foldlM_cons, List.foldlM_nil, meltStep, h, except_bind_ok]

theorem pyFloat_eval_12 : pyFloat "1.2" = some (6/5 : ℚ) := by
  rw [show pyFloat "1.2" = some (mantissaVal ['1'] ['2'] * (10 : ℚ) ^ (0 : ℤ)) from rfl]
  simp only [mantissaVal]
  rw [show digitsVal ['1'] = 1 from rfl, show digitsVal ['2'] = 2 from rfl]
  norm_num

theorem pyFloat_eval_04 : pyFloat "0.4" = some (2/5 : ℚ) := by
  rw [show pyFloat "0.4" = some (mantissaVal ['0'] ['4'] * (10 : ℚ) ^ (0 : ℤ)) from rfl]
  simp only [mantissaVal]
  rw [show digitsVal ['0'] = 0 from rfl, show digitsVal ['4'] = 4 from rfl]
  norm_num

theorem pyFloat_eval_15 : pyFloat "1.5" = some (3/2 : ℚ) := by
  rw [show pyFloat "1.5" = some (mantissaVal ['1'] ['5'] * (10 : ℚ) ^ (0 : ℤ)) from rfl]
  simp only [mantissaVal]
  rw [show digitsVal ['1'] = 1 from rfl, show digitsVal ['5'] = 5 from rfl]
  norm_num

theorem pyFloat_eval_03 : pyFloat "0.3" = some (3/10 : ℚ) := by
  rw [show pyFloat "0.3" = some (mantissaVal ['0'] ['3'] * (10 : ℚ) ^ (0 : ℤ)) from rfl]
  simp only [mantissaVal]
  rw [show digitsVal ['0'] = 0 from rfl, show digitsVal ['3'] = 3 from rfl]
  norm_num

theorem pyFloat_eval_13 : pyFloat "1.3" = some (13/10 : ℚ) := by
  rw [show pyFloat "1.3" = some (mantissaVal ['1'] ['3'] * (10 : ℚ) ^ (0 : ℤ)) from rfl]
  simp only [mantissaVal]
  rw [show digitsVal ['1'] = 1 from rfl, show digitsVal ['3'] = 3 from rfl]
  norm_num

theorem pyFloat_eval_16 : pyFloat "1.6" = some (8/5 : ℚ) := by
  rw [show pyFloat "1.6" = some (mantissaVal ['1'] ['6'] * (10 : ℚ) ^ (0 : ℤ)) from rfl]
  simp only [mantissaVal]
  rw [show digitsVal ['1'] = 1 from rfl, show digitsVal ['6'] = 6 from rfl]
  norm_num

theorem pyFloat_eval_05 : pyFloat "0.5" = some (1/2 : ℚ) := by
  rw [show pyFloat "0.5" = some (mantissaVal ['0'] ['5'] * (10 : ℚ) ^ (0 : ℤ)) from rfl]
  simp only [mantissaVal]
  rw [show digitsVal ['0'] = 0 from rfl, show digitsVal ['5'] = 5 from rfl]
  norm_num

theorem processSlot_concrete (m d : Int) (r : Row) (i : Nat) (hr mi_ : Int)
    (H : String) (q : ℚ) (ts : Timestamp)
    (h1 : pyBlank (r.tcol i) = false) (h2 : pyBlank (r.hcol i) = false)
    (h3 : pyIntL ((pyZfill 4 ((r.tcol i).getD "")).data.take 2) = some hr)
    (h4 : pyIntL ((pyZfill 4 ((r.tcol i).getD "")).data.drop 2) = some mi_)
    (h5 : mkTimestamp m d hr mi_ = .ok ts)
    (h6 : pyStrip ((r.hcol i).getD "") = H)
    (h7 : pyFloat H = some q) :
    processSlot m d r i = .ok (some ⟨ts, q, i, m, d⟩) := by
  rw [processSlot_parsed m d r i hr mi_ h1 h2 h3 h4, h5, h6, h7]

theorem c6_row : processRow (toRow ["03", "15", "0531", "1.2", "1145", "0.4", "1758", "1.5", "2310", "0.3"]) =
    .ok [⟨⟨3, 15, 5, 31⟩, 6/5, 1, 3, 15⟩, ⟨⟨3, 15, 11, 45⟩, 2/5, 2, 3, 15⟩,
         ⟨⟨3, 15, 17, 58⟩, 3/2, 3, 3, 15⟩, ⟨⟨3, 15, 23, 10⟩, 3/10, 4, 3, 15⟩] := by
  rw [processRow_eval4 _ 3 15
    (some ⟨⟨3, 15, 5, 31⟩, 6/5, 1, 3, 15⟩) (some ⟨⟨3, 15, 11, 45⟩, 2/5, 2, 3, 15⟩)
    (some ⟨⟨3, 15, 17, 58⟩, 3/2, 3, 3, 15⟩) (some ⟨⟨3, 15, 23, 10⟩, 3/10, 4, 3, 15⟩)
    (by decide) (by decide)
    (processSlot_concrete 3 15 _ 1 5 31 "1.2" _ _ (by decide) (by decide) (by decide)
      (by decide) rfl (by decide) pyFloat_eval_12)
    (processSlot_concrete 3 15 _ 2 11 45 "0.4" _ _ (by decide) (by decide) (by decide)
      (by decide) rfl (by decide) pyFloat_eval_04)
    (processSlot_concrete 3 15 _ 3 17 58 "1.5" _ _ (by decide) (by decide) (by decide)
      (by decide) rfl (by decide) pyFloat_eval_15)
    (processSlot_concrete 3 15 _ 4 23 10 "0.3" _ _ (by decide) (by decide) (by decide)
      (by decide) rfl (by decide) pyFloat_eval_03)]
  rfl

theorem c6_sorted : sortReadings
    [⟨⟨3, 15, 5, 31⟩, 6/5, 1, 3, 15⟩, ⟨⟨3, 15, 11, 45⟩, 2/5, 2, 3, 15⟩,
     ⟨⟨3, 15, 17, 58⟩, 3/2, 3, 3, 15⟩, ⟨⟨3, 15, 23, 10⟩, 3/10, 4, 3, 15⟩] =
    [⟨⟨3, 15, 5, 31⟩, 6/5, 1, 3, 15⟩, ⟨⟨3, 15, 11, 45⟩, 2/5, 2, 3, 15⟩,
     ⟨⟨3, 15, 17, 58⟩, 3/2, 3, 3, 15⟩, ⟨⟨3, 15, 23, 10⟩, 3/10, 4, 3, 15⟩] := by
  simp [sortReadings, List.insertionSort, List.orderedInsert, readingLE, tsKey]

theorem reshapeMelt_single_error {r : Row} {e : String}
    (h : processRow r = .error e) : reshapeMelt [r] = .error e := by
  unfold reshapeMelt
  simp [List.foldlM_cons, List.foldlM_nil, meltStep, h, except_bind_error]

/-- C6: reshaping the single wide row [03, 15, 0531, 1.2, 1145, 0.4, 1758,
1.5, 2310, 0.3] with year 2023 yields exactly 4 Readings in pair order:
(2023-03-15T05:31, 1.2, pair 1), (2023-03-15T11:45, 0.4, pair 2),
(2023-03-15T17:58, 1.5, pair 3), (2023-03-15T23:10, 0.3, pair 4). -/
theorem claim_C6 :
    reshapeProgram [toRow ["03", "15", "0531", "1.2", "1145", "0.4", "1758", "1.5", "2310", "0.3"]] =
      .ok [⟨⟨3, 15, 5, 31⟩, 6/5, 1, 3, 15⟩, ⟨⟨3, 15, 11, 45⟩, 2/5, 2, 3, 15⟩,
           ⟨⟨3, 15, 17, 58⟩, 3/2, 3, 3, 15⟩, ⟨⟨3, 15, 23, 10⟩, 3/10, 4, 3, 15⟩] := by
  rw [reshapeProgram_of_melt (reshapeMelt_single c6_row) (by simp), c6_sorted]

theorem c7_row : processRow (toRow ["03", "16", "0601", "1.3", "", "", "1830", "1.6", "", ""]) =
    .ok [⟨⟨3, 16, 6, 1⟩, 13/10, 1, 3, 16⟩, ⟨⟨3, 16, 18, 30⟩, 8/5, 3, 3, 16⟩] := by
  rw [processRow_eval4 _ 3 16
    (some ⟨⟨3, 16, 6, 1⟩, 13/10, 1, 3, 16⟩) none
    (some ⟨⟨3, 16, 18, 30⟩, 8/5, 3, 3, 16⟩) none
    (by decide) (by decide)
    (processSlot_concrete 3 16 _ 1 6 1 "1.3" _ _ (by decide) (by decide) (by decide)
      (by decide) rfl (by decide) pyFloat_eval_13)
    (processSlot_skip_blank 3 16 _ 2 (Or.inl (by decide)))
    (processSlot_concrete 3 16 _ 3 18 30 "1.6" _ _ (by decide) (by decide) (by decide)
      (by decide) rfl (by decide) pyFloat_eval_16)
    (processSlot_skip_blank 3 16 _ 4 (Or.inl (by decide)))]
  rfl

/-- C7: a pair slot whose time or height text is missing or blank is
skipped silently (no Reading, no error); a row with all 4 pairs blank
yields zero Readings; and the row [03, 16, 0601, 1.3, blank, blank, 1830,
1.6, blank, blank] yields exactly 2 Readings, from pairs 1 and 3. -/
theorem claim_C7 (m d : Int) (r : Row) (i : Nat)
    (hblank : pyBlank (r.tcol i) = true ∨ pyBlank (r.hcol i) = true) :
    processSlot m d r i = .ok none ∧
    reshapeMelt [toRow ["03", "16", "", "", "", "", "", "", "", ""]] = .ok [] ∧
    reshapeProgram [toRow ["03", "16", "0601", "1.3", "", "", "1830", "1.6", "", ""]] =
      .ok [⟨⟨3, 16, 6, 1⟩, 13/10, 1, 3, 16⟩, ⟨⟨3, 16, 18, 30⟩, 8/5, 3, 3, 16⟩] := by
  refine ⟨processSlot_skip_blank m d r i hblank, ?_, ?_⟩
  · refine reshapeMelt_single (processRow_eval4 _ 3 16 none none none none (by decide) (by decide) ?_ ?_ ?_ ?_)
    all_goals exact processSlot_skip_blank 3 16 _ _ (Or.inl (by decide))
  · rw [reshapeProgram_of_melt (reshapeMelt_single c7_row) (by simp)]
    simp [sortReadings, List.insertionSort, List.orderedInsert, readingLE, tsKey]

/-- Witness for C7 at slot 2 of the all-blank row. -/
theorem claim_C7_witness :
    processSlot 3 16 (toRow ["03", "16", "", "", "", "", "", "", "", ""]) 2 = .ok none ∧
    reshapeMelt [toRow ["03", "16", "", "", "", "", "", "", "", ""]] = .ok [] ∧
    reshapeProgram [toRow ["03", "16", "0601", "1.3", "", "", "1830", "1.6", "", ""]] =
      .ok [⟨⟨3, 16, 6, 1⟩, 13/10, 1, 3, 16⟩, ⟨⟨3, 16, 18, 30⟩, 8/5, 3, 3, 16⟩] :=
  claim_C7 3 16 (toRow ["03", "16", "", "", "", "", "", "", "", ""]) 2 (Or.inl (by decide))

theorem c1_badrow : processRow (toRow ["03", "15", "0531", "1.2", "9999", "0.5", "1758", "1.5", "", ""]) =
    .error "ValueError: invalid datetime fields" := by
  have s1 : processSlot 3 15 (toRow ["03", "15", "0531", "1.2", "9999", "0.5", "1758", "1.5", "", ""]) 1 =
      .ok (some ⟨⟨3, 15, 5, 31⟩, 6/5, 1, 3, 15⟩) :=
    processSlot_concrete 3 15 _ 1 5 31 "1.2" _ _ (by decide) (by decide) (by decide)
      (by decide) rfl (by decide) pyFloat_eval_12
  have s2 : processSlot 3 15 (toRow ["03", "15", "0531", "1.2", "9999", "0.5", "1758", "1.5", "", ""]) 2 =
      .error "ValueError: invalid datetime fields" := by
    rw [processSlot_parsed 3 15 _ 2 99 99 (by decide) (by decide) (by decide) (by decide)]
    rfl
  unfold processRow
  rw [show pyIntCell (toRow ["03", "15", "0531", "1.2", "9999", "0.5", "1758", "1.5", "", ""]).month = some 3 from by decide]
  rw [show pyIntCell (toRow ["03", "15", "0531", "1.2", "9999", "0.5", "1758", "1.5", "", ""]).day = some 15 from by decide]
  simp only [List.foldlM_cons, slotStep, s1, s2, except_bind_ok, except_bind_error]

/-- C1 counterexample: a row whose second slot has the numeric but
out-of-range time text 9999 makes the whole run abort with the uncaught
ValueError from the Timestamp constructor, instead of skipping just that
slot, so the claim as stated is false. -/
theorem claim_C1_counterexample :
    reshapeProgram [toRow ["03", "15", "0531", "1.2", "9999", "0.5", "1758", "1.5", "", ""]] =
      .error "ValueError: invalid datetime fields" :=
  reshapeProgram_of_melt_error (reshapeMelt_single_error c1_badrow)

/-- C1 amended: non-numeric time text in a slot causes only that slot to
be skipped (the slot yields no Reading and no exception), but time text
that parses to an out-of-range hour or minute aborts the run at Timestamp
construction, because that call is outside the try block. -/
theorem claim_C1_amended (m d : Int) (r : Row) (i j : Nat) (hr mi_ : Int)
    (h1 : pyBlank (r.tcol i) = false) (h2 : pyBlank (r.hcol i) = false)
    (h3 : pyIntL ((pyZfill 4 ((r.tcol i).getD "")).data.take 2) = none ∨
          pyIntL ((pyZfill 4 ((r.tcol i).getD "")).data.drop 2) = none)
    (h4 : pyBlank (r.tcol j) = false) (h5 : pyBlank (r.hcol j) = false)
    (h6 : pyIntL ((pyZfill 4 ((r.tcol j).getD "")).data.take 2) = some hr)
    (h7 : pyIntL ((pyZfill 4 ((r.tcol j).getD "")).data.drop 2) = some mi_)
    (h8 : hr < 0 ∨ 23 < hr ∨ mi_ < 0 ∨ 59 < mi_) :
    processSlot m d r i = .ok none ∧
    processSlot m d r j = .error "ValueError: invalid datetime fields" := by
  refine ⟨processSlot_skip_badint m d r i h1 h2 h3, ?_⟩
  rw [processSlot_parsed m d r j hr mi_ h4 h5 h6 h7]
  have hcond : (1 ≤ m && m ≤ 12 && 1 ≤ d && d ≤ daysInMonth2023 m &&
      0 ≤ hr && hr ≤ 23 && 0 ≤ mi_ && mi_ ≤ 59) = false := by
    by_contra hc
    rw [Bool.not_eq_false] at hc
    simp only [Bool.and_eq_true, decide_eq_true_eq] at hc
    obtain ⟨⟨⟨⟨⟨⟨⟨_, _⟩, _⟩, _⟩, hh0⟩, hh23⟩, hm0⟩, hm59⟩ := hc
    rcases h8 with h | h | h | h <;> omega
  have : mkTimestamp m d hr mi_ = .error "ValueError: invalid datetime fields" := by
    unfold mkTimestamp
    rw [if_neg (by rw [hcond]; exact Bool.false_ne_true)]
  rw [this]

/-- Witness for the amended C1: slot 1 has non-numeric time text and is
skipped, slot 2 has time text 9999 and aborts. -/
theorem claim_C1_amended_witness :
    processSlot 3 15 (toRow ["03", "15", "ab1x", "0.5", "9999", "0.5", "", "", "", ""]) 1 = .ok none ∧
    processSlot 3 15 (toRow ["03", "15", "ab1x", "0.5", "9999", "0.5", "", "", "", ""]) 2 =
      .error "ValueError: invalid datetime fields" :=
  claim_C1_amended 3 15 (toRow ["03", "15", "ab1x", "0.5", "9999", "0.5", "", "", "", ""]) 1 2 99 99
    (by decide) (by decide) (Or.inl (by decide)) (by decide) (by decide) (by decide) (by decide)
    (by omega)

/-- C3 counterexample: for the reshaper, an input yielding zero Readings
does not end in a non-fatal nothing-to-write report: the run aborts with
an uncaught KeyError from sorting the column-less empty DataFrame, so the
claim as stated is false. -/
theorem claim_C3_counterexample :
    reshapeProgram [] = .error "KeyError: datetime" := rfl

/-- C3 amended: the extractor reports the empty result set non-fatally and
writes no file; the reshaper on zero Readings also creates no output file,
but by aborting with an uncaught KeyError rather than by reporting a
non-fatal condition. -/
theorem claim_C3_amended (doc : Document) (df : List Row)
    (h1 : parse_tables doc = []) (h2 : reshapeMelt df = .ok []) :
    extractorMain doc = none ∧ reshapeProgram df = .error "KeyError: datetime" := by
  constructor
  · unfold extractorMain
    rw [h1]
    rfl
  · exact reshapeProgram_of_melt_nil h2

/-- Witness for the amended C3 on the empty document and empty frame. -/
theorem claim_C3_amended_witness :
    extractorMain [] = none ∧ reshapeProgram [] = .error "KeyError: datetime" :=
  claim_C3_amended [] [] rfl rfl

/-- C9: if any input row has non-numeric month or day text, the reshaper
stage aborts with an uncaught exception, before any output is written; the
slot-level skip-and-continue recovery does not apply to month and day. -/
theorem claim_C9 (df : List Row) (r : Row) (hmem : r ∈ df)
    (hbad : pyIntCell r.month = none ∨ pyIntCell r.day = none) :
    ∃ e, reshapeProgram df = .error e := by
  obtain ⟨e, he⟩ := processRow_error_of_bad_month_day hbad
  obtain ⟨e2, h2⟩ := foldlM_meltStep_error hmem he []
  exact ⟨e2, reshapeProgram_of_melt_error h2⟩

/-- Witness for C9: a single row with month text xx aborts the run. -/
theorem claim_C9_witness :
    ∃ e, reshapeProgram [toRow ["xx", "16", "0601", "1.3", "", "", "", "", "", ""]] = .error e :=
  claim_C9 [toRow ["xx", "16", "0601", "1.3", "", "", "", "", "", ""]]
    (toRow ["xx", "16", "0601", "1.3", "", "", "", "", "", ""])
    (List.mem_singleton.mpr rfl) (Or.inl (by decide))

/-- C8: the extractor emits rows in document order - exactly the rows that
have no header cell and at least 2 data cells, each padded or truncated to
exactly 10 text fields, with no deduplication and no sorting - and every
emitted row has exactly 10 fields. -/
theorem claim_C8 (doc : Document) :
    parse_tables doc = ((doc.flatten).filter keepTr).map padTr ∧
    (parse_tables doc).all (fun r => r.length == 10) = true := by
  refine ⟨parse_tables_eq doc, ?_⟩
  rw [parse_tables_eq doc, List.all_eq_true]
  intro r hrmem
  obtain ⟨tr, _, hre⟩ := List.mem_map.mp hrmem
  rw [← hre, padTr_length tr]
  rfl

/-- C5: extracting a document with exactly one table of N well-formed,
non-header rows yields exactly N wide rows, and melting M wide rows each
having 4 valid pairs yields exactly 4*M Readings. -/
theorem claim_C5 (table : List (List Cell)) (df : List Row)
    (h1 : ∀ tr ∈ table, keepTr tr = true) (h2 : ∀ r ∈ df, rowAllValid r = true) :
    (parse_tables [table]).length = table.length ∧
    ∃ l, reshapeMelt df = .ok l ∧ l.length = 4 * df.length := by
  constructor
  · rw [parse_tables_eq]
    have hfl : ([table] : Document).flatten = table := by simp
    rw [hfl, List.filter_eq_self.mpr h1, List.length_map]
  · obtain ⟨l, hl, hlen⟩ := foldlM_meltStep_count h2 []
    exact ⟨l, hl, by simpa using hlen⟩

/-- Witness for C5 with a 2-row table and one fully valid wide row. -/
theorem claim_C5_witness :
    (parse_tables [[[⟨false, "03"⟩, ⟨false, "15"⟩], [⟨false, "03"⟩, ⟨false, "16"⟩]]]).length = 2 ∧
    ∃ l, reshapeMelt [toRow ["03", "15", "0531", "1.2", "1145", "0.4", "1758", "1.5", "2310", "0.3"]] = .ok l ∧
      l.length = 4 * 1 := by
  have := claim_C5 [[⟨false, "03"⟩, ⟨false, "15"⟩], [⟨false, "03"⟩, ⟨false, "16"⟩]]
    [toRow ["03", "15", "0531", "1.2", "1145", "0.4", "1758", "1.5", "2310", "0.3"]]
    (by decide) (by decide)
  simpa using this

/-- C10: normalize_text is total on missing input (None maps to the empty
string) and idempotent, and its result never contains a no-break space, a
leading or trailing whitespace character, or two consecutive spaces. -/
theorem claim_C10 :
    normalize_text none = "" ∧
    ∀ s : String,
      normalize_text (some (normalize_text (some s))) = normalize_text (some s) ∧
      (normalize_text (some s)).data.all (fun c => !(c == Char.ofNat 160)) = true ∧
      ((normalize_text (some s)).data.head?.all (fun c => !isPySpace c)) = true ∧
      ((normalize_text (some s)).data.getLast?.all (fun c => !isPySpace c)) = true ∧
      noDoubleSpace (normalize_text (some s)).data = true := by
  refine ⟨rfl, fun s => ⟨?_, ?_, ?_, ?_, ?_⟩⟩
  · show String.mk (normalizeL (normalizeL s.data)) = String.mk (normalizeL s.data)
    rw [normalizeL_idem]
  · rw [List.all_eq_true]
    intro c hc
    have := normalizeL_no_nbsp s.data c hc
    simpa using this
  · show ((normalizeL s.data).head?.all (fun c => !isPySpace c)) = true
    cases hh : (normalizeL s.data).head? with
    | none => rfl
    | some c =>
      have := normalizeL_head s.data c (by rw [hh]; rfl)
      simp [Option.all, this]
  · show ((normalizeL s.data).getLast?.all (fun c => !isPySpace c)) = true
    cases hh : (normalizeL s.data).getLast? with
    | none => rfl
    | some c =>
      have := normalizeL_getLast s.data c (by rw [hh]; rfl)
      simp [Option.all, this]
  · exact normalizeL_noDouble s.data
theorem string_ne_empty_of_data_ne {s : String} (h : s.data ≠ []) : s ≠ "" := by
  intro he
  rw [he] at h
  exact h rfl

/-- C4: for all valid 4-digit time strings T and decimal strings H,
extracting then reshaping a wide row containing exactly one (T, H) pair
and three blank pairs yields exactly one Reading whose tide_m equals
float(H) and whose datetime hour and minute are the values of the first
two and last two characters of T. -/
theorem claim_C4 (mS dS T H : String) (q : ℚ)
    (hmne : mS.data ≠ []) (hmdig : ∀ c ∈ mS.data, c.isDigit = true)
    (hdne : dS.data ≠ []) (hddig : ∀ c ∈ dS.data, c.isDigit = true)
    (hT4 : T.data.length = 4) (hTdig : ∀ c ∈ T.data, c.isDigit = true)
    (hHne : H.data ≠ []) (hHw : ∀ c ∈ H.data, isPySpace c = false)
    (hq : pyFloat H = some q)
    (hm1 : 1 ≤ (digitsVal mS.data : Int)) (hm2 : (digitsVal mS.data : Int) ≤ 12)
    (hd1 : 1 ≤ (digitsVal dS.data : Int))
    (hd2 : (digitsVal dS.data : Int) ≤ daysInMonth2023 (digitsVal mS.data : Int))
    (hhr : (digitsVal (T.data.take 2) : Int) ≤ 23)
    (hmi : (digitsVal (T.data.drop 2) : Int) ≤ 59) :
    pipeline [[[⟨false, mS⟩, ⟨false, dS⟩, ⟨false, T⟩, ⟨false, H⟩, ⟨false, ""⟩,
                ⟨false, ""⟩, ⟨false, ""⟩, ⟨false, ""⟩, ⟨false, ""⟩, ⟨false, ""⟩]]] =
      .ok [⟨⟨(digitsVal mS.data : Int), (digitsVal dS.data : Int),
             (digitsVal (T.data.take 2) : Int), (digitsVal (T.data.drop 2) : Int)⟩,
            q, 1, (digitsVal mS.data : Int), (digitsVal dS.data : Int)⟩] := by
  have hTne : T.data ≠ [] := by
    intro he
    rw [he] at hT4
    exact absurd hT4 (by decide)
  have hnormM : normalize_text (some mS) = mS :=
    normalize_text_of_no_ws mS hmne (fun c hc => isPySpace_false_of_isDigit (hmdig c hc))
  have hnormD : normalize_text (some dS) = dS :=
    normalize_text_of_no_ws dS hdne (fun c hc => isPySpace_false_of_isDigit (hddig c hc))
  have hnormT : normalize_text (some T) = T :=
    normalize_text_of_no_ws T hTne (fun c hc => isPySpace_false_of_isDigit (hTdig c hc))
  have hnormH : normalize_text (some H) = H := normalize_text_of_no_ws H hHne hHw
  have hpt : processTr [⟨false, mS⟩, ⟨false, dS⟩, ⟨false, T⟩, ⟨false, H⟩, ⟨false, ""⟩,
      ⟨false, ""⟩, ⟨false, ""⟩, ⟨false, ""⟩, ⟨false, ""⟩, ⟨false, ""⟩] =
      some [mS, dS, T, H, "", "", "", "", "", ""] := by
    show some [normalize_text (some mS), normalize_text (some dS), normalize_text (some T),
      normalize_text (some H), normalize_text (some ""), normalize_text (some ""),
      normalize_text (some ""), normalize_text (some ""), normalize_text (some ""),
      normalize_text (some "")] = some [mS, dS, T, H, "", "", "", "", "", ""]
    rw [hnormM, hnormD, hnormT, hnormH]
    rfl
  have hrow : toRow [mS, dS, T, H, "", "", "", "", "", ""] =
      ⟨some mS, some dS, some T, some H, none, none, none, none, none, none⟩ := by
    have hm : mS ≠ "" := string_ne_empty_of_data_ne hmne
    have hd : dS ≠ "" := string_ne_empty_of_data_ne hdne
    have hT : T ≠ "" := string_ne_empty_of_data_ne hTne
    have hH : H ≠ "" := string_ne_empty_of_data_ne hHne
    show Row.mk (csvCell mS) (csvCell dS) (csvCell T) (csvCell H) (csvCell "") (csvCell "")
      (csvCell "") (csvCell "") (csvCell "") (csvCell "") = _
    rw [show csvCell "" = none from rfl]
    unfold csvCell
    rw [if_neg hm, if_neg hd, if_neg hT, if_neg hH]
  have hTtake_ne : T.data.take 2 ≠ [] := by
    have h2 : (T.data.take 2).length = 2 := by
      rw [List.length_take, hT4]
      omega
    intro he
    rw [he] at h2
    exact absurd h2 (by decide)
  have hTdrop_ne : T.data.drop 2 ≠ [] := by
    have : (T.data.drop 2).length = 2 := by
      rw [List.length_drop, hT4]
    intro he
    rw [he] at this
    exact absurd this (by decide)
  have hzf : pyZfill 4 T = T := pyZfill_of_length (by rw [hT4])
  have hint1 : pyIntL (T.data.take 2) = some ((digitsVal (T.data.take 2) : Nat) : Int) :=
    pyIntL_digits _ hTtake_ne (fun c hc => hTdig c (List.take_subset 2 T.data hc))
  have hint2 : pyIntL (T.data.drop 2) = some ((digitsVal (T.data.drop 2) : Nat) : Int) :=
    pyIntL_digits _ hTdrop_ne (fun c hc => hTdig c (List.drop_subset 2 T.data hc))
  have hts : mkTimestamp (digitsVal mS.data : Int) (digitsVal dS.data : Int)
      (digitsVal (T.data.take 2) : Int) (digitsVal (T.data.drop 2) : Int) =
      .ok ⟨(digitsVal mS.data : Int), (digitsVal dS.data : Int),
           (digitsVal (T.data.take 2) : Int), (digitsVal (T.data.drop 2) : Int)⟩ := by
    unfold mkTimestamp
    rw [if_pos]
    simp only [Bool.and_eq_true, decide_eq_true_eq]
    refine ⟨⟨⟨⟨⟨⟨⟨hm1, hm2⟩, hd1⟩, hd2⟩, Int.ofNat_nonneg _⟩, hhr⟩, Int.ofNat_nonneg _⟩, hmi⟩
  set R : Row := ⟨some mS, some dS, some T, some H, none, none, none, none, none, none⟩ with hR
  have hs1 : processSlot (digitsVal mS.data : Int) (digitsVal dS.data : Int) R 1 =
      .ok (some ⟨⟨(digitsVal mS.data : Int), (digitsVal dS.data : Int),
                  (digitsVal (T.data.take 2) : Int), (digitsVal (T.data.drop 2) : Int)⟩,
                 q, 1, (digitsVal mS.data : Int), (digitsVal dS.data : Int)⟩) := by
    refine processSlot_concrete _ _ R 1 _ _ H q _ ?_ ?_ ?_ ?_ hts ?_ hq
    · show pyBlank (some T) = false
      exact pyBlank_digits hTne hTdig
    · show pyBlank (some H) = false
      exact pyBlank_some_false hHne hHw
    · show pyIntL ((pyZfill 4 T).data.take 2) = _
      rw [hzf]
      exact hint1
    · show pyIntL ((pyZfill 4 T).data.drop 2) = _
      rw [hzf]
      exact hint2
    · show pyStrip H = H
      exact pyStrip_no_ws hHw
  have hprow : processRow R = .ok [⟨⟨(digitsVal mS.data : Int), (digitsVal dS.data : Int),
      (digitsVal (T.data.take 2) : Int), (digitsVal (T.data.drop 2) : Int)⟩,
      q, 1, (digitsVal mS.data : Int), (digitsVal dS.data : Int)⟩] := by
    rw [processRow_eval4 R (digitsVal mS.data : Int) (digitsVal dS.data : Int)
      (some ⟨⟨(digitsVal mS.data : Int), (digitsVal dS.data : Int),
              (digitsVal (T.data.take 2) : Int), (digitsVal (T.data.drop 2) : Int)⟩,
             q, 1, (digitsVal mS.data : Int), (digitsVal dS.data : Int)⟩) none none none
      ?_ ?_ hs1 ?_ ?_ ?_]
    · rfl
    · show pyIntCell (some mS) = _
      show pyInt mS = _
      exact pyIntL_digits _ hmne hmdig
    · show pyIntCell (some dS) = _
      show pyInt dS = _
      exact pyIntL_digits _ hdne hddig
    · exact processSlot_skip_blank _ _ R 2 (Or.inl rfl)
    · exact processSlot_skip_blank _ _ R 3 (Or.inl rfl)
    · exact processSlot_skip_blank _ _ R 4 (Or.inl rfl)
  unfold pipeline
  have hparse : parse_tables [[[⟨false, mS⟩, ⟨false, dS⟩, ⟨false, T⟩, ⟨false, H⟩, ⟨false, ""⟩,
      ⟨false, ""⟩, ⟨false, ""⟩, ⟨false, ""⟩, ⟨false, ""⟩, ⟨false, ""⟩]]] =
      [[mS, dS, T, H, "", "", "", "", "", ""]] := by
    unfold parse_tables
    simp only [List.flatten_cons, List.flatten_nil, List.append_nil, List.filterMap_cons,
      List.filterMap_nil, hpt]
  rw [hparse, List.map_cons, List.map_nil, hrow]
  rw [reshapeProgram_of_melt (reshapeMelt_single hprow) (by simp)]
  rfl

/-- Witness for C4 at T = 0531, H = 1.2, month 03, day 15. -/
theorem claim_C4_witness :
    pipeline [[[⟨false, "03"⟩, ⟨false, "15"⟩, ⟨false, "0531"⟩, ⟨false, "1.2"⟩, ⟨false, ""⟩,
                ⟨false, ""⟩, ⟨false, ""⟩, ⟨false, ""⟩, ⟨false, ""⟩, ⟨false, ""⟩]]] =
      .ok [⟨⟨3, 15, 5, 31⟩, 6/5, 1, 3, 15⟩] :=
  claim_C4 "03" "15" "0531" "1.2" (6/5) (by decide) (by decide) (by decide) (by decide)
    (by decide) (by decide) (by decide) (by decide) pyFloat_eval_12
    (by decide) (by decide) (by decide) (by decide) (by decide) (by decide)

end HkoTide
